import Mathlib

/-!
Shallow embedding of `src/data/download_training.py` (street_crafter repository).

The script resolves integer scene indices through a local index file
(`waymo_train_list.txt`), then, per scene, invokes an external copy tool
(`gsutil`) once for a primary tfrecord file and once for each of seven fixed
data categories, collecting per-scene success/failure in an orchestrator loop.

Modelling choices:
* Python strings are `List Char`; `str.replace(old, "")`, `str.strip()`,
  `str.startswith`, `str.endswith`, `str.split`, `int(...)` and Python list
  indexing (including negative indices) are embedded as executable functions.
* The external copy tool is an oracle `CopyCmd → Bool` deciding whether each
  issued copy command succeeds; a `false` answer models the
  `subprocess.CalledProcessError` that `run_command` turns into an exception.
* Effects are reified: a scene fetch yields the ordered list of copy commands
  actually issued plus a success flag; the whole run yields an event trace
  (directory creation, per-scene reports, fatal exit) plus a terminal result.
-/

/-- Python whitespace characters recognised by `str.strip()` (ASCII part). -/
def isPySpace (c : Char) : Bool :=
  c == ' ' || c == '\t' || c == '\n' || c == '\r' || c == '\x0B' || c == '\x0C'

/-- Python `s.strip()`: remove leading and trailing whitespace. -/
def pyStrip (s : List Char) : List Char :=
  ((s.dropWhile isPySpace).reverse.dropWhile isPySpace).reverse

/-- Modelled from the spec: the claim wording of C4 reads "the line ... with its
trailing whitespace stripped"; this definition follows those words (strip only
the trailing whitespace), to be compared with the code's `pyStrip`. -/
def stripTrailingOnly (s : List Char) : List Char :=
  (s.reverse.dropWhile isPySpace).reverse

/-- If `pat` is a prefix of `s`, return the remainder of `s`, else `none`. -/
def dropPrefixQ : List Char → List Char → Option (List Char)
  | [], s => some s
  | _ :: _, [] => none
  | p :: ps, c :: cs => if p == c then dropPrefixQ ps cs else none

/-- Python `s.startswith(pat)`. -/
def pyStartsWith (pat s : List Char) : Bool := (dropPrefixQ pat s).isSome

/-- Python `s.endswith(pat)`. -/
def pyEndsWith (pat s : List Char) : Bool := (dropPrefixQ pat.reverse s.reverse).isSome

/-- `pat` occurs somewhere in `s` as a contiguous substring. -/
def containsSub (pat : List Char) : List Char → Bool
  | [] => pat.isEmpty
  | c :: cs => (dropPrefixQ pat (c :: cs)).isSome || containsSub pat cs

/-- Worker for `pyReplaceEmpty`: scan left to right, deleting each
non-overlapping occurrence of `pat`.  The fuel argument (initially the length
of the string) only serves totality; it is never exhausted when `pat ≠ []`. -/
def replaceDropAux (pat : List Char) : Nat → List Char → List Char
  | _, [] => []
  | 0, s => s
  | fuel + 1, c :: cs =>
    match dropPrefixQ pat (c :: cs) with
    | some rest => replaceDropAux pat fuel rest
    | none => c :: replaceDropAux pat fuel cs

/-- Python `s.replace(pat, "")`: delete every non-overlapping occurrence of
`pat`, scanning left to right. -/
def pyReplaceEmpty (pat s : List Char) : List Char :=
  if pat.isEmpty then s else replaceDropAux pat s.length s

/-- Python `str(i)` for an `int`. -/
def pyStr (i : Int) : List Char := (toString i).toList

/-- Python list indexing `l[i]`: non-negative indices are zero-based offsets,
negative indices count from the end (`l[i]` is `l[len(l) + i]`); anything out
of range raises `IndexError`, modelled as `none`. -/
def pyIndex (l : List (List Char)) (i : Int) : Option (List Char) :=
  if 0 ≤ i then l[i.toNat]?
  else if 0 ≤ i + (l.length : Int) then l[(i + (l.length : Int)).toNat]? else none

/-- Digit-string payload of Python `int(...)`: all characters must be digits. -/
def parseDigits (s : List Char) : Option Nat :=
  if !s.isEmpty && s.all Char.isDigit then
    some (s.foldl (fun a c => a * 10 + (c.toNat - 48)) 0)
  else none

/-- Python `int(s)`: optional sign and digits, surrounding whitespace allowed;
anything else raises `ValueError`, modelled as `Except.error`. -/
def pyInt (s : List Char) : Except Unit Int :=
  match pyStrip s with
  | '-' :: rest =>
    match parseDigits rest with
    | some n => Except.ok (-(n : Int))
    | none => Except.error ()
  | '+' :: rest =>
    match parseDigits rest with
    | some n => Except.ok (n : Int)
    | none => Except.error ()
  | t =>
    match parseDigits t with
    | some n => Except.ok (n : Int)
    | none => Except.error ()

/-- The fixed leading marker of a well-formed filename record. -/
def preMarker : List Char := "segment-".toList

/-- The fixed trailing marker of a well-formed filename record. -/
def sufMarker : List Char := "_with_camera_labels".toList

/-- One invocation of the external copy tool: remote source URL and local
destination, as templated by the script. -/
structure CopyCmd where
  url : List Char
  dest : List Char
deriving DecidableEq, Repr

/-- The segment-id derivation of `download_scene_data`, together with the flag
recording whether the fallback warning was printed:
```python
if filename.startswith("segment-") and filename.endswith("_with_camera_labels"):
    segment_id = filename.replace("segment-", "").replace("_with_camera_labels", "")
else:
    print(f"Warning: Unexpected filename format: {filename}")
    segment_id = str(scene_id)
``` -/
def deriveSegmentIdWarn (filename : List Char) (scene_id : Int) : List Char × Bool :=
  if pyStartsWith preMarker filename && pyEndsWith sufMarker filename then
    (pyReplaceEmpty sufMarker (pyReplaceEmpty preMarker filename), false)
  else
    (pyStr scene_id, true)

/-- The derived secondary (segment) id of a scene. -/
def deriveSegmentId (filename : List Char) (scene_id : Int) : List Char :=
  (deriveSegmentIdWarn filename scene_id).1

/-- Modelled from the spec: C1's claim says the secondary id "equals exactly the
substring between those two fixed markers"; this definition follows those
words, to be compared with the code's `deriveSegmentId`. -/
def claimedSecondaryId (r : List Char) : List Char :=
  (r.drop preMarker.length).take (r.length - preMarker.length - sufMarker.length)

/-- The copy command issued by `download_tfrecord_file`:
`gs://waymo_open_dataset_v_1_4_1/individual_files/training/<filename>.tfrecord`
into `<target_dir>/`. -/
def tfrecordCmd (filename target : List Char) : CopyCmd :=
  ⟨"gs://waymo_open_dataset_v_1_4_1/individual_files/training/".toList ++ filename
      ++ ".tfrecord".toList,
   target ++ "/".toList⟩

/-- The `data_types` table of `download_parsed_data`: seven fixed
(data type, folder name) pairs. -/
def data_types : List (List Char × List Char) :=
  [("lidar".toList, "lidar".toList),
   ("lidar_box".toList, "lidar_box".toList),
   ("lidar_calibration".toList, "lidar_calibration".toList),
   ("lidar_camera_projection".toList, "lidar_camera_projection".toList),
   ("lidar_camera_synced_box".toList, "lidar_camera_synced_box".toList),
   ("lidar_pose".toList, "lidar_pose".toList),
   ("vehicle_pose".toList, "vehicle_pose".toList)]

/-- The copy command issued by `download_parsed_data` for one data category:
`gs://waymo_open_dataset_v_2_0_0/training/<data_type>/<scene_id>.parquet`
into `<target_dir>/<folder_name>/`. -/
def categoryCmd (dataType folderName segId target : List Char) : CopyCmd :=
  ⟨"gs://waymo_open_dataset_v_2_0_0/training/".toList ++ dataType ++ "/".toList
      ++ segId ++ ".parquet".toList,
   target ++ "/".toList ++ folderName ++ "/".toList⟩

/-- The full ordered list of copy commands a scene fetch would issue if every
command succeeded: the tfrecord command first, then one category command per
`data_types` entry, using the derived segment id. -/
def sceneCmds (scene_id : Int) (target filename : List Char) : List CopyCmd :=
  tfrecordCmd filename target ::
    data_types.map (fun p => categoryCmd p.1 p.2 (deriveSegmentId filename scene_id) target)

/-- Issue commands in order against the copy-tool oracle, stopping at the first
failure (`run_command` raises, aborting the enclosing scene fetch).  Returns
the list of commands actually issued (the failing one included) and whether
all of them succeeded. -/
def runCmds (oracle : CopyCmd → Bool) : List CopyCmd → List CopyCmd × Bool
  | [] => ([], true)
  | c :: rest =>
    if oracle c then
      let r := runCmds oracle rest
      (c :: r.1, r.2)
    else ([c], false)

/-- `download_scene_data`: the tfrecord download, segment-id derivation, and
the seven category downloads, fail-fast on the first copy failure.  Returns
the issued copy commands in order and the overall success flag. -/
def download_scene_data (oracle : CopyCmd → Bool) (scene_id : Int)
    (target filename : List Char) : List CopyCmd × Bool :=
  runCmds oracle (sceneCmds scene_id target filename)

/-- Outcome of one scene's fetch task as observed by the orchestrator loop. -/
inductive SceneOutcome
  | success
  | failure
deriving DecidableEq, Repr

/-- The outcome the orchestrator records for one scene: `future.result()`
raises exactly when some copy command of that scene failed. -/
def sceneOutcome (oracle : CopyCmd → Bool) (scene_id : Int)
    (target record : List Char) : SceneOutcome :=
  if (download_scene_data oracle scene_id target record).2 then .success else .failure

/-- The orchestrator's task loop over `zip(scene_ids, file_names)`: one
independent fetch task per pair, each failure caught locally. -/
def runOrchestrator (oracle : CopyCmd → Bool) (target : List Char)
    (pairs : List (Int × List Char)) : List SceneOutcome :=
  pairs.map (fun p => sceneOutcome oracle p.1 target p.2)

/-- `file_names = [total_list[i].strip() for i in scene_ids]`: look up every
requested index in the index-file lines, stripping each selected line; the
first out-of-range index raises `IndexError`, modelled as `Except.error`. -/
def resolveRecords (total_list : List (List Char)) : List Int → Except Int (List (List Char))
  | [] => Except.ok []
  | i :: rest =>
    match pyIndex total_list i with
    | none => Except.error i
    | some line =>
      match resolveRecords total_list rest with
      | Except.error j => Except.error j
      | Except.ok names => Except.ok (pyStrip line :: names)

/-- Observable events of one run of `download_training_data`, in program
order. -/
inductive RunEvent
  | mkdirParents (dir : List Char)
  | fatalExit (code : Nat)
  | sceneReport (counter : Nat) (outcome : SceneOutcome)
deriving DecidableEq, Repr

/-- Terminal result of one run of `download_training_data`: `sys.exit(1)`,
an uncaught `IndexError` (which also ends the process), or normal completion
with the per-scene outcomes. -/
inductive RunResult
  | fatalExit (code : Nat)
  | uncaught (idx : Int)
  | completed (outcomes : List SceneOutcome)
deriving DecidableEq, Repr

/-- The per-scene report lines `[counter/len(scene_ids)] Scene ...`, emitted in
submission order with counters starting at 1. -/
def sceneReports (outcomes : List SceneOutcome) : List RunEvent :=
  ((List.range outcomes.length).zip outcomes).map
    (fun p => RunEvent.sceneReport (p.1 + 1) p.2)

/-- Number of per-scene report events in a trace. -/
def countReports : List RunEvent → Nat
  | [] => 0
  | RunEvent.sceneReport _ _ :: rest => countReports rest + 1
  | _ :: rest => countReports rest

/-- `download_training_data`: create the target directory (parents included,
idempotent), then check the index file, then resolve the requested indices,
then run the orchestrator loop.  `indexFile = none` models a missing
`waymo_train_list.txt` (the `os.path.exists` check fails); `some lines` models
its contents as returned by `readlines()`.  The event trace preserves program
order: the `mkdir` always happens first. -/
def download_training_data (oracle : CopyCmd → Bool) (scene_ids : List Int)
    (target : List Char) (indexFile : Option (List (List Char))) :
    List RunEvent × RunResult :=
  match indexFile with
  | none => ([RunEvent.mkdirParents target, RunEvent.fatalExit 1], RunResult.fatalExit 1)
  | some total_list =>
    match resolveRecords total_list scene_ids with
    | Except.error i => ([RunEvent.mkdirParents target], RunResult.uncaught i)
    | Except.ok file_names =>
      let outcomes := runOrchestrator oracle target (scene_ids.zip file_names)
      (RunEvent.mkdirParents target :: sceneReports outcomes, RunResult.completed outcomes)

/-- First comma-delimited field of a stripped split-file line:
`line.strip().split(",")[0]`. -/
def splitFirstField (line : List Char) : List Char :=
  ((pyStrip line).splitOn ',').headD []

/-- The split-file branch of `main`: drop the header line, then parse the
leading comma-delimited field of every remaining line as an integer scene
index, in line order; a non-numeric field raises `ValueError`. -/
def parseSplitFile (lines : List (List Char)) : Except Unit (List Int) :=
  (lines.drop 1).mapM (fun line => pyInt (splitFirstField line))

/-- Concrete record used to separate the code's replace-all derivation from the
substring-between-markers reading. -/
def cexRecord : List Char := "segment-segment-abc_with_camera_labels".toList

deriving instance DecidableEq for Except

/-! ## Basic list lemmas -/

theorem getElemQ_eq_some_getD (l : List (List Char)) (n : Nat) (h : n < l.length) :
    l[n]? = some (l.getD n []) := by
  induction l generalizing n with
  | nil => simp at h
  | cons a t ih =>
    cases n with
    | zero => simp [List.getD]
    | succ m => simpa [List.getD] using ih m (by simpa using h)

theorem getElemQ_eq_none (l : List (List Char)) (n : Nat) (h : l.length ≤ n) :
    l[n]? = none := by
  induction l generalizing n with
  | nil => simp
  | cons a t ih =>
    cases n with
    | zero => simp at h
    | succ m => simpa using ih m (by simpa using h)

theorem getD_map_of_lt {α β : Type} (l : List α) (f : α → β) (k : Nat) (d : β) (d2 : α)
    (h : k < l.length) : (l.map f).getD k d = f (l.getD k d2) := by
  induction l generalizing k with
  | nil => simp at h
  | cons a t ih =>
    cases k with
    | zero => simp
    | succ m => simpa using ih m (by simpa using h)

theorem getD_zip_of_lt {α β : Type} (a : List α) (b : List β) (k : Nat) (x : α) (y : β)
    (h1 : k < a.length) (h2 : k < b.length) :
    (a.zip b).getD k (x, y) = (a.getD k x, b.getD k y) := by
  induction a generalizing b k with
  | nil => simp at h1
  | cons p t ih =>
    cases b with
    | nil => simp at h2
    | cons q s =>
      cases k with
      | zero => simp
      | succ m => simpa using ih s m (by simpa using h1) (by simpa using h2)

/-! ## dropPrefixQ lemmas -/

theorem dropPrefixQ_eq_some (p : List Char) :
    ∀ (s r : List Char), dropPrefixQ p s = some r ↔ s = p ++ r := by
  induction p with
  | nil => intro s r; simp [dropPrefixQ]
  | cons x xs ih =>
    intro s r
    cases s with
    | nil => simp [dropPrefixQ]
    | cons c cs =>
      cases hx : (x == c) with
      | true =>
        have hxc : x = c := eq_of_beq hx
        subst hxc
        simp [dropPrefixQ, ih]
      | false =>
        have hxc : ¬ (x = c) := by
          intro he; subst he; simp at hx
        simp [dropPrefixQ, hx]
        intro he; exact (hxc he.symm).elim

/-! ## runCmds lemmas -/

theorem runCmds_all_true (oracle : CopyCmd → Bool) (cmds : List CopyCmd)
    (h : ∀ c, oracle c = true) : runCmds oracle cmds = (cmds, true) := by
  induction cmds with
  | nil => rfl
  | cons a rest ih => simp [runCmds, h a, ih]

theorem runCmds_issued_initial (oracle : CopyCmd → Bool) (cmds : List CopyCmd) :
    ∃ rest, cmds = (runCmds oracle cmds).1 ++ rest := by
  induction cmds with
  | nil => exact ⟨[], rfl⟩
  | cons a rest ih =>
    cases ha : oracle a with
    | false => exact ⟨rest, by simp [runCmds, ha]⟩
    | true =>
      obtain ⟨r, hr⟩ := ih
      refine ⟨r, ?_⟩
      simp only [runCmds, ha, if_true, List.cons_append]
      rw [← hr]

theorem runCmds_before_last_true (oracle : CopyCmd → Bool) (cmds : List CopyCmd) :
    ∀ c ∈ ((runCmds oracle cmds).1).dropLast, oracle c = true := by
  induction cmds with
  | nil => intro c hc; simp [runCmds] at hc
  | cons a rest ih =>
    intro c hc
    cases ha : oracle a with
    | false => simp [runCmds, ha] at hc
    | true =>
      have htr : (runCmds oracle (a :: rest)).1 = a :: (runCmds oracle rest).1 := by
        simp [runCmds, ha]
      rw [htr] at hc
      cases hT : (runCmds oracle rest).1 with
      | nil => rw [hT] at hc; simp at hc
      | cons x xs =>
        rw [hT] at hc
        simp only [List.dropLast, List.mem_cons] at hc
        rcases hc with rfl | hc2
        · exact ha
        · exact ih c (by rw [hT]; simpa [List.dropLast] using hc2)

/-! ## pyIndex and resolveRecords lemmas -/

theorem pyIndex_none_of_ge (l : List (List Char)) (i : Int)
    (h : (l.length : Int) ≤ i) : pyIndex l i = none := by
  have h0 : 0 ≤ i := by omega
  have hge : l.length ≤ i.toNat := by omega
  simp [pyIndex, h0, getElemQ_eq_none _ _ hge]

theorem resolveRecords_error_of_bad (total_list : List (List Char)) (ids : List Int)
    (i : Int) (hmem : i ∈ ids) (hbad : pyIndex total_list i = none) :
    ∃ j, resolveRecords total_list ids = Except.error j := by
  induction ids with
  | nil => cases hmem
  | cons a rest ih =>
    cases hop : pyIndex total_list a with
    | none => exact ⟨a, by simp [resolveRecords, hop]⟩
    | some v =>
      rcases List.mem_cons.1 hmem with rfl | hmem2
      · rw [hop] at hbad; cases hbad
      · obtain ⟨j, hj⟩ := ih hmem2
        exact ⟨j, by simp [resolveRecords, hop, hj]⟩

theorem resolveRecords_ok_of_valid (total_list : List (List Char)) (ids : List Int)
    (hvalid : ∀ i, i ∈ ids → 0 ≤ i ∧ i < (total_list.length : Int)) :
    resolveRecords total_list ids =
      Except.ok (ids.map (fun i => pyStrip (total_list.getD i.toNat []))) := by
  induction ids with
  | nil => rfl
  | cons a rest ih =>
    obtain ⟨h0, hlt⟩ := hvalid a (List.mem_cons_self a rest)
    have hlt2 : a.toNat < total_list.length := by omega
    have hpi : pyIndex total_list a = some (total_list.getD a.toNat []) := by
      unfold pyIndex
      rw [if_pos h0, getElemQ_eq_some_getD total_list a.toNat hlt2]
    have ih2 := ih (fun i hi => hvalid i (List.mem_cons_of_mem a hi))
    rw [show resolveRecords total_list (a :: rest) =
        (match pyIndex total_list a with
         | none => Except.error a
         | some line =>
           match resolveRecords total_list rest with
           | Except.error j => Except.error j
           | Except.ok names => Except.ok (pyStrip line :: names)) from rfl,
      hpi, ih2]
    rfl

theorem resolveRecords_congr (tl tl2 : List (List Char)) (ids : List Int)
    (hagree : ∀ i, i ∈ ids → pyIndex tl2 i = pyIndex tl i) :
    resolveRecords tl2 ids = resolveRecords tl ids := by
  induction ids with
  | nil => rfl
  | cons a rest ih =>
    have ha := hagree a (List.mem_cons_self a rest)
    have ih2 := ih (fun i hi => hagree i (List.mem_cons_of_mem a hi))
    simp only [resolveRecords, ha, ih2]

theorem resolveRecords_ok_length (total_list : List (List Char)) (ids : List Int)
    (names : List (List Char)) (h : resolveRecords total_list ids = Except.ok names) :
    names.length = ids.length := by
  induction ids generalizing names with
  | nil =>
    simp only [resolveRecords, Except.ok.injEq] at h
    rw [← h]
    rfl
  | cons a rest ih =>
    cases hpi : pyIndex total_list a with
    | none => simp [resolveRecords, hpi] at h
    | some v =>
      cases hr : resolveRecords total_list rest with
      | error j => simp [resolveRecords, hpi, hr] at h
      | ok ns =>
        simp only [resolveRecords, hpi, hr, Except.ok.injEq] at h
        rw [← h]
        simp [ih ns hr]

/-! ## Claims C10, C9, C3, C4, C5 -/

/-- C10: when the index file does not exist, the run still creates `target_dir`
(parents included) before detecting the error and exiting with status 1; the
trace shows the directory creation strictly preceding the fatal exit, so the
fatal exit leaves the filesystem changed. -/
theorem claim_C10 (oracle : CopyCmd → Bool) (scene_ids : List Int) (target : List Char) :
    (download_training_data oracle scene_ids target none).1 =
      [RunEvent.mkdirParents target, RunEvent.fatalExit 1] ∧
    (download_training_data oracle scene_ids target none).2 = RunResult.fatalExit 1 :=
  ⟨rfl, rfl⟩

/-- C9: for every negative scene index `i` with `-(line count) ≤ i < 0`,
resolving raises no error and silently returns the (stripped) line at position
`line count + i`, counted from the end of the file. -/
theorem claim_C9 (total_list : List (List Char)) (i : Int)
    (h1 : -(total_list.length : Int) ≤ i) (h2 : i < 0) :
    resolveRecords total_list [i] =
      Except.ok [pyStrip (total_list.getD ((total_list.length : Int) + i).toNat [])] := by
  have hneg : ¬ (0 ≤ i) := by omega
  have hnn : 0 ≤ i + (total_list.length : Int) := by omega
  have hlt : (i + (total_list.length : Int)).toNat < total_list.length := by omega
  have hpi : pyIndex total_list i =
      some (total_list.getD ((total_list.length : Int) + i).toNat []) := by
    unfold pyIndex
    rw [if_neg hneg, if_pos hnn, getElemQ_eq_some_getD total_list _ hlt]
    rw [show (i + (total_list.length : Int)).toNat
        = ((total_list.length : Int) + i).toNat by omega]
  rw [show resolveRecords total_list [i] =
      (match pyIndex total_list i with
       | none => Except.error i
       | some line =>
         match resolveRecords total_list ([] : List Int) with
         | Except.error j => Except.error j
         | Except.ok names => Except.ok (pyStrip line :: names)) from rfl, hpi]
  rfl

/-- C9 witness: with a two-line index file, index `-1` resolves silently to the
last line. -/
theorem claim_C9_witness :
    resolveRecords ["x\n".toList, "y\n".toList] [-1] =
      Except.ok [pyStrip ((["x\n".toList, "y\n".toList]).getD
        (((["x\n".toList, "y\n".toList] : List (List Char)).length : Int) + -1).toNat [])] :=
  claim_C9 ["x\n".toList, "y\n".toList] (-1) (by decide) (by decide)

/-- C3: for every scene index at or beyond the number of lines of the index
file, the run ends in an uncaught IndexError (process-ending); resolution never
yields a record list. -/
theorem claim_C3 (oracle : CopyCmd → Bool) (total_list : List (List Char))
    (scene_ids : List Int) (target : List Char) (i : Int)
    (hmem : i ∈ scene_ids) (hge : (total_list.length : Int) ≤ i) :
    (∃ j, (download_training_data oracle scene_ids target (some total_list)).2 =
      RunResult.uncaught j) ∧
    (∀ names, resolveRecords total_list scene_ids ≠ Except.ok names) := by
  obtain ⟨j, hj⟩ := resolveRecords_error_of_bad total_list scene_ids i hmem
    (pyIndex_none_of_ge total_list i hge)
  refine ⟨⟨j, ?_⟩, ?_⟩
  · simp [download_training_data, hj]
  · intro names hnames
    rw [hj] at hnames
    cases hnames

/-- C3 witness: a one-line index file with requested indices `[0, 5]` ends in
an uncaught IndexError and never produces records. -/
theorem claim_C3_witness :
    (∃ j, (download_training_data (fun _ => true) [0, 5] "t".toList
      (some ["aaa\n".toList])).2 = RunResult.uncaught j) ∧
    (∀ names, resolveRecords ["aaa\n".toList] [0, 5] ≠ Except.ok names) :=
  claim_C3 (fun _ => true) ["aaa\n".toList] [0, 5] "t".toList 5 (by decide) (by decide)

/-- C4 counterexample: the claim says each record is the selected line "with
its trailing whitespace stripped", but the code strips leading whitespace as
well: on the one-line index file `" a\n"` the code yields `"a"`, not the
claimed `" a"`. -/
theorem claim_C4_counterexample :
    resolveRecords [" a\n".toList] [0] = Except.ok ["a".toList] ∧
    stripTrailingOnly " a\n".toList = " a".toList ∧
    resolveRecords [" a\n".toList] [0] ≠ Except.ok [stripTrailingOnly " a\n".toList] := by
  decide

/-- C4 (amended): for every sequence of valid zero-based scene indices,
resolve returns one record per requested index, in request order, each record
being the line at that index with its leading and trailing whitespace
stripped; index-file lines not referenced by any requested index have no
effect on the result. -/
theorem claim_C4 (tl tl2 : List (List Char)) (ids : List Int)
    (hvalid : ∀ i, i ∈ ids → 0 ≤ i ∧ i < (tl.length : Int))
    (hagree : ∀ i, i ∈ ids → tl2[i.toNat]? = tl[i.toNat]?) :
    ∃ names, resolveRecords tl ids = Except.ok names ∧
      names.length = ids.length ∧
      (∀ k, k < ids.length →
        names.getD k [] = pyStrip (tl.getD (ids.getD k 0).toNat [])) ∧
      resolveRecords tl2 ids = resolveRecords tl ids := by
  refine ⟨_, resolveRecords_ok_of_valid tl ids hvalid, by simp, ?_, ?_⟩
  · intro k hk
    exact getD_map_of_lt ids _ k [] 0 hk
  · refine resolveRecords_congr tl tl2 ids (fun i hi => ?_)
    have h0 := (hvalid i hi).1
    unfold pyIndex
    rw [if_pos h0, if_pos h0, hagree i hi]

/-- C4 witness: indices `[2, 0]` against a three-line file, resolved in request
order; changing the unreferenced line 1 does not change the result. -/
theorem claim_C4_witness :
    ∃ names, resolveRecords ["x\n".toList, " y \n".toList, "z\n".toList] [2, 0] =
      Except.ok names ∧
      names.length = ([2, 0] : List Int).length ∧
      (∀ k, k < ([2, 0] : List Int).length →
        names.getD k [] = pyStrip ((["x\n".toList, " y \n".toList, "z\n".toList]).getD
          (([2, 0] : List Int).getD k 0).toNat [])) ∧
      resolveRecords ["x\n".toList, "CHANGED".toList, "z\n".toList] [2, 0] =
        resolveRecords ["x\n".toList, " y \n".toList, "z\n".toList] [2, 0] :=
  claim_C4 ["x\n".toList, " y \n".toList, "z\n".toList]
    ["x\n".toList, "CHANGED".toList, "z\n".toList] [2, 0]
    (by
      intro i hi
      simp only [List.mem_cons, List.not_mem_nil, or_false] at hi
      rcases hi with rfl | rfl
      · exact ⟨by decide, by decide⟩
      · exact ⟨by decide, by decide⟩)
    (by
      intro i hi
      simp only [List.mem_cons, List.not_mem_nil, or_false] at hi
      rcases hi with rfl | rfl
      · decide
      · decide)

theorem mapM_except_ok_length {α β : Type} (f : α → Except Unit β) (l : List α)
    (vals : List β) (h : l.mapM f = Except.ok vals) : vals.length = l.length := by
  induction l generalizing vals with
  | nil =>
    have hv : [] = vals := Except.ok.inj h
    rw [← hv]
    rfl
  | cons a t ih =>
    rw [List.mapM_cons] at h
    cases hfa : f a with
    | error e =>
      rw [hfa] at h
      exact Except.noConfusion h
    | ok b =>
      rw [hfa] at h
      cases ht : t.mapM f with
      | error e =>
        rw [ht] at h
        exact Except.noConfusion h
      | ok bs =>
        rw [ht] at h
        have hv : b :: bs = vals := Except.ok.inj h
        rw [← hv]
        simp [ih bs ht]

/-- C5: the split-file resolver discards the header line (whatever its content)
and maps each remaining line, in order, to the integer parse of its first
comma-delimited field; the result has one index per data row. -/
theorem claim_C5 (header : List Char) (rows : List (List Char)) (vals : List Int)
    (h : rows.mapM (fun line => pyInt (splitFirstField line)) = Except.ok vals) :
    parseSplitFile (header :: rows) = Except.ok vals ∧ vals.length = rows.length := by
  constructor
  · unfold parseSplitFile
    simpa using h
  · exact mapM_except_ok_length _ _ _ h

/-- C5 witness: a header line followed by rows `"7,foo"` and `"12,bar"`
resolves to scene indices `[7, 12]`. -/
theorem claim_C5_witness :
    parseSplitFile ["id,name".toList, "7,foo".toList, "12,bar".toList] =
      Except.ok [7, 12] ∧
    ([7, 12] : List Int).length = (["7,foo".toList, "12,bar".toList]).length :=
  claim_C5 "id,name".toList ["7,foo".toList, "12,bar".toList] [7, 12] (by decide)

/-! ## Claims C6, C8, C7 -/

/-- C6: within one scene fetch, a copy failure on the primary tfrecord file
aborts the scene before any category command is issued; the issued commands
always form an initial segment of the scene's command list in which every
command except possibly the last succeeded, so no copy request is issued after
the first failure. -/
theorem claim_C6 (oracle : CopyCmd → Bool) (scene_id : Int) (target filename : List Char) :
    (oracle (tfrecordCmd filename target) = false →
      (download_scene_data oracle scene_id target filename).1 =
        [tfrecordCmd filename target]) ∧
    (∀ c ∈ ((download_scene_data oracle scene_id target filename).1).dropLast,
      oracle c = true) ∧
    (∃ rest, sceneCmds scene_id target filename =
      (download_scene_data oracle scene_id target filename).1 ++ rest) := by
  refine ⟨?_, ?_, ?_⟩
  · intro hf
    simp [download_scene_data, sceneCmds, runCmds, hf]
  · exact runCmds_before_last_true oracle _
  · exact runCmds_issued_initial oracle _

/-- C6 witness: with an always-failing copy tool, the scene's trace is exactly
the tfrecord command, so no category download was attempted. -/
theorem claim_C6_witness :
    (download_scene_data (fun _ => false) 0 "t".toList "f".toList).1 =
      [tfrecordCmd "f".toList "t".toList] :=
  (claim_C6 (fun _ => false) 0 "t".toList "f".toList).1 rfl

/-- C8: for every scene whose copies all succeed, the fetcher issues exactly
eight copy requests: the primary file from
`gs://waymo_open_dataset_v_1_4_1/individual_files/training/<filename>.tfrecord`
into `target/`, then one request per each of the seven fixed categories from
`gs://waymo_open_dataset_v_2_0_0/training/<category>/<secondary id>.parquet`
into `target/<category>/`, the subdirectory name equalling the category
name. -/
theorem claim_C8 (oracle : CopyCmd → Bool) (scene_id : Int) (target filename : List Char)
    (h : ∀ c, oracle c = true) :
    (download_scene_data oracle scene_id target filename).1.length = 8 ∧
    (download_scene_data oracle scene_id target filename).1 =
      CopyCmd.mk
        ("gs://waymo_open_dataset_v_1_4_1/individual_files/training/".toList ++ filename
          ++ ".tfrecord".toList)
        (target ++ "/".toList) ::
      ["lidar".toList, "lidar_box".toList, "lidar_calibration".toList,
       "lidar_camera_projection".toList, "lidar_camera_synced_box".toList,
       "lidar_pose".toList, "vehicle_pose".toList].map
        (fun cat =>
          CopyCmd.mk
            ("gs://waymo_open_dataset_v_2_0_0/training/".toList ++ cat ++ "/".toList
              ++ deriveSegmentId filename scene_id ++ ".parquet".toList)
            (target ++ "/".toList ++ cat ++ "/".toList)) := by
  have htr : download_scene_data oracle scene_id target filename =
      (sceneCmds scene_id target filename, true) := runCmds_all_true oracle _ h
  rw [download_scene_data] at htr
  unfold download_scene_data
  rw [htr]
  exact ⟨rfl, rfl⟩

/-- C8 witness: a concrete scene with an all-succeeding copy tool issues the
eight expected requests. -/
theorem claim_C8_witness :
    (download_scene_data (fun _ => true) 4 "t".toList
      "segment-abc_with_camera_labels".toList).1.length = 8 ∧
    (download_scene_data (fun _ => true) 4 "t".toList
      "segment-abc_with_camera_labels".toList).1 =
      CopyCmd.mk
        ("gs://waymo_open_dataset_v_1_4_1/individual_files/training/".toList
          ++ "segment-abc_with_camera_labels".toList ++ ".tfrecord".toList)
        ("t".toList ++ "/".toList) ::
      ["lidar".toList, "lidar_box".toList, "lidar_calibration".toList,
       "lidar_camera_projection".toList, "lidar_camera_synced_box".toList,
       "lidar_pose".toList, "vehicle_pose".toList].map
        (fun cat =>
          CopyCmd.mk
            ("gs://waymo_open_dataset_v_2_0_0/training/".toList ++ cat ++ "/".toList
              ++ deriveSegmentId "segment-abc_with_camera_labels".toList 4
              ++ ".parquet".toList)
            ("t".toList ++ "/".toList ++ cat ++ "/".toList)) :=
  claim_C8 (fun _ => true) 4 "t".toList "segment-abc_with_camera_labels".toList
    (fun _ => rfl)

/-- C7: for every filename record that does not match the
`segment-<id>_with_camera_labels` pattern, the derivation raises no error: the
secondary id falls back to the string form of the scene index, the warning
flag is set, and the seven category downloads still proceed using that
fallback id. -/
theorem claim_C7 (filename : List Char) (scene_id : Int) (target : List Char)
    (h : (pyStartsWith preMarker filename && pyEndsWith sufMarker filename) = false) :
    deriveSegmentIdWarn filename scene_id = (pyStr scene_id, true) ∧
    (download_scene_data (fun _ => true) scene_id target filename).1 =
      tfrecordCmd filename target ::
        data_types.map (fun p => categoryCmd p.1 p.2 (pyStr scene_id) target) ∧
    (data_types.map (fun p => categoryCmd p.1 p.2 (pyStr scene_id) target)).length = 7 := by
  have hw : deriveSegmentIdWarn filename scene_id = (pyStr scene_id, true) := by
    unfold deriveSegmentIdWarn
    rw [h]
    rfl
  refine ⟨hw, ?_, by simp [data_types]⟩
  have htr := runCmds_all_true (fun _ => true) (sceneCmds scene_id target filename)
    (fun _ => rfl)
  unfold download_scene_data
  rw [htr]
  show sceneCmds scene_id target filename = _
  unfold sceneCmds deriveSegmentId
  rw [hw]

/-- C7 witness: the record `"weird_name"` falls back to the stringified scene
index `7` with a warning, and the seven category downloads proceed with it. -/
theorem claim_C7_witness :
    deriveSegmentIdWarn "weird_name".toList 7 = (pyStr 7, true) ∧
    (download_scene_data (fun _ => true) 7 "t".toList "weird_name".toList).1 =
      tfrecordCmd "weird_name".toList "t".toList ::
        data_types.map (fun p => categoryCmd p.1 p.2 (pyStr 7) "t".toList) ∧
    (data_types.map (fun p => categoryCmd p.1 p.2 (pyStr 7) "t".toList)).length = 7 :=
  claim_C7 "weird_name".toList 7 "t".toList (by decide)

/-! ## Claim C2 -/

theorem countReports_mkdir_cons (d : List Char) (rest : List RunEvent) :
    countReports (RunEvent.mkdirParents d :: rest) = countReports rest := rfl

theorem countReports_sceneReports (outcomes : List SceneOutcome) :
    countReports (sceneReports outcomes) = outcomes.length := by
  unfold sceneReports
  have hmap : ∀ (l : List (Nat × SceneOutcome)),
      countReports (l.map (fun p => RunEvent.sceneReport (p.1 + 1) p.2)) = l.length := by
    intro l
    induction l with
    | nil => rfl
    | cons a t ih => simp [countReports, ih]
  rw [hmap]
  simp

/-- C2: whenever index resolution succeeds, the run completes (no single
scene's copy failure ever escapes the task loop), the number of reported
per-scene outcomes equals the number of requested scenes, and the outcome
recorded at each position depends only on that scene's own fetch — so one
scene's failure never prevents the others from being attempted and
reported. -/
theorem claim_C2 (oracle : CopyCmd → Bool) (total_list : List (List Char))
    (scene_ids : List Int) (target : List Char) (file_names : List (List Char))
    (h : resolveRecords total_list scene_ids = Except.ok file_names) :
    ∃ outcomes,
      (download_training_data oracle scene_ids target (some total_list)).2 =
        RunResult.completed outcomes ∧
      outcomes.length = scene_ids.length ∧
      countReports (download_training_data oracle scene_ids target (some total_list)).1 =
        scene_ids.length ∧
      ∀ k, k < scene_ids.length →
        outcomes.getD k SceneOutcome.success =
          sceneOutcome oracle (scene_ids.getD k 0) target (file_names.getD k []) := by
  have hlen := resolveRecords_ok_length total_list scene_ids file_names h
  have hzlen : (scene_ids.zip file_names).length = scene_ids.length := by
    simp [List.length_zip, hlen]
  have hrun : download_training_data oracle scene_ids target (some total_list) =
      (RunEvent.mkdirParents target ::
        sceneReports (runOrchestrator oracle target (scene_ids.zip file_names)),
       RunResult.completed (runOrchestrator oracle target (scene_ids.zip file_names))) := by
    show (match resolveRecords total_list scene_ids with
          | Except.error i => ([RunEvent.mkdirParents target], RunResult.uncaught i)
          | Except.ok file_names =>
            let outcomes := runOrchestrator oracle target (scene_ids.zip file_names)
            (RunEvent.mkdirParents target :: sceneReports outcomes,
             RunResult.completed outcomes)) = _
    rw [h]
  have holen : (runOrchestrator oracle target (scene_ids.zip file_names)).length
      = scene_ids.length := by
    simp [runOrchestrator, hzlen]
  refine ⟨runOrchestrator oracle target (scene_ids.zip file_names), ?_, holen, ?_, ?_⟩
  · rw [hrun]
  · rw [hrun]
    show countReports (RunEvent.mkdirParents target :: _) = _
    rw [countReports_mkdir_cons, countReports_sceneReports, holen]
  · intro k hk
    have hk2 : k < (scene_ids.zip file_names).length := by rw [hzlen]; exact hk
    have hk3 : k < file_names.length := by rw [hlen]; exact hk
    unfold runOrchestrator
    rw [getD_map_of_lt (scene_ids.zip file_names) _ k SceneOutcome.success (0, []) hk2]
    rw [getD_zip_of_lt scene_ids file_names k 0 [] hk hk3]

/-- C2 witness: three valid scenes where the copy tool fails exactly on the
middle scene's tfrecord request; the run still completes with three reported
outcomes, each determined by its own scene alone. -/
theorem claim_C2_witness :
    ∃ outcomes,
      (download_training_data
        (fun c => decide (c ≠ tfrecordCmd "b".toList "t".toList)) [0, 1, 2] "t".toList
        (some ["a\n".toList, "b\n".toList, "c\n".toList])).2 =
        RunResult.completed outcomes ∧
      outcomes.length = ([0, 1, 2] : List Int).length ∧
      countReports (download_training_data
        (fun c => decide (c ≠ tfrecordCmd "b".toList "t".toList)) [0, 1, 2] "t".toList
        (some ["a\n".toList, "b\n".toList, "c\n".toList])).1 =
        ([0, 1, 2] : List Int).length ∧
      ∀ k, k < ([0, 1, 2] : List Int).length →
        outcomes.getD k SceneOutcome.success =
          sceneOutcome (fun c => decide (c ≠ tfrecordCmd "b".toList "t".toList))
            (([0, 1, 2] : List Int).getD k 0) "t".toList
            (["a".toList, "b".toList, "c".toList].getD k []) :=
  claim_C2 (fun c => decide (c ≠ tfrecordCmd "b".toList "t".toList))
    ["a\n".toList, "b\n".toList, "c\n".toList] [0, 1, 2] "t".toList
    ["a".toList, "b".toList, "c".toList] (by decide)

/-! ## Claim C1: the replace-all derivation versus the substring between the markers -/

theorem dropPrefixQ_self_append (p r : List Char) : dropPrefixQ p (p ++ r) = some r :=
  (dropPrefixQ_eq_some p (p ++ r) r).2 rfl

theorem replaceDropAux_nil (pat : List Char) (fuel : Nat) :
    replaceDropAux pat fuel [] = [] := by
  cases fuel <;> rfl

theorem replaceDropAux_pos (pat s rest : List Char) (fuel : Nat)
    (hs : s ≠ []) (h : dropPrefixQ pat s = some rest) :
    replaceDropAux pat (fuel + 1) s = replaceDropAux pat fuel rest := by
  cases s with
  | nil => exact absurd rfl hs
  | cons c cs => simp [replaceDropAux, h]

theorem replaceDropAux_neg (pat : List Char) (c : Char) (cs : List Char) (fuel : Nat)
    (h : dropPrefixQ pat (c :: cs) = none) :
    replaceDropAux pat (fuel + 1) (c :: cs) = c :: replaceDropAux pat fuel cs := by
  simp [replaceDropAux, h]

theorem containsSub_cons_false (pat : List Char) (c : Char) (cs : List Char)
    (h : containsSub pat (c :: cs) = false) :
    dropPrefixQ pat (c :: cs) = none ∧ containsSub pat cs = false := by
  have h2 : ((dropPrefixQ pat (c :: cs)).isSome || containsSub pat cs) = false := h
  rw [Bool.or_eq_false_iff] at h2
  refine ⟨?_, h2.2⟩
  cases hd : dropPrefixQ pat (c :: cs) with
  | none => rfl
  | some v => rw [hd] at h2; simp at h2

theorem replaceDropAux_no_occ (pat : List Char) :
    ∀ (fuel : Nat) (s : List Char), s.length ≤ fuel → containsSub pat s = false →
      replaceDropAux pat fuel s = s := by
  intro fuel
  induction fuel with
  | zero =>
    intro s hs _
    cases s with
    | nil => rfl
    | cons c cs => simp at hs
  | succ f ih =>
    intro s hs hc
    cases s with
    | nil => rfl
    | cons c cs =>
      obtain ⟨hd, hcs⟩ := containsSub_cons_false pat c cs hc
      rw [replaceDropAux_neg pat c cs f hd]
      rw [ih cs (by simp at hs; omega) hcs]

theorem dropPrefixQ_append_none (pat s t : List Char)
    (h1 : dropPrefixQ pat s = none)
    (h2 : ∀ k : Fin pat.length, k.val ≠ 0 → dropPrefixQ (pat.drop k.val) t = none)
    (h3 : s ≠ []) :
    dropPrefixQ pat (s ++ t) = none := by
  cases hd : dropPrefixQ pat (s ++ t) with
  | none => rfl
  | some r =>
    exfalso
    have heq : s ++ t = pat ++ r := (dropPrefixQ_eq_some pat (s ++ t) r).1 hd
    by_cases hlen : pat.length ≤ s.length
    · have hcg := congrArg (List.take pat.length) heq
      rw [List.take_append_eq_append_take, List.take_append_eq_append_take] at hcg
      rw [Nat.sub_eq_zero_of_le hlen, Nat.sub_self] at hcg
      simp only [List.take_length, List.take_zero, List.append_nil] at hcg
      have hsplit : s = pat ++ s.drop pat.length := by
        conv_lhs => rw [← List.take_append_drop pat.length s]
        rw [hcg]
      have hpre : dropPrefixQ pat s = some (s.drop pat.length) :=
        (dropPrefixQ_eq_some pat s (s.drop pat.length)).2 hsplit
      rw [hpre] at h1
      exact Option.noConfusion h1
    · push_neg at hlen
      have hslen : s.length ≠ 0 := by
        intro h0
        exact h3 (List.length_eq_zero.mp h0)
      have hcg := congrArg (List.drop s.length) heq
      rw [List.drop_append_eq_append_drop, List.drop_append_eq_append_drop] at hcg
      rw [Nat.sub_self] at hcg
      rw [show s.length - pat.length = 0 from Nat.sub_eq_zero_of_le (Nat.le_of_lt hlen)]
        at hcg
      simp only [List.drop_length, List.drop_zero, List.nil_append] at hcg
      have hsome : dropPrefixQ (pat.drop s.length) t = some r :=
        (dropPrefixQ_eq_some (pat.drop s.length) t r).2 hcg
      have hnone := h2 ⟨s.length, hlen⟩ hslen
      rw [hsome] at hnone
      exact Option.noConfusion hnone

theorem preMarker_not_in_suf : containsSub preMarker sufMarker = false := by decide

theorem preMarker_drop_overlap :
    ∀ k : Fin preMarker.length, k.val ≠ 0 →
      dropPrefixQ (preMarker.drop k.val) sufMarker = none := by decide

theorem sufMarker_self_overlap :
    ∀ k : Fin sufMarker.length, k.val ≠ 0 →
      dropPrefixQ (sufMarker.drop k.val) sufMarker = none := by decide

theorem containsSub_pre_append (m : List Char)
    (hp : containsSub preMarker m = false) :
    containsSub preMarker (m ++ sufMarker) = false := by
  induction m with
  | nil => simpa using preMarker_not_in_suf
  | cons c cs ih =>
    obtain ⟨hd, hcs⟩ := containsSub_cons_false preMarker c cs hp
    have hih := ih hcs
    have hdn : dropPrefixQ preMarker ((c :: cs) ++ sufMarker) = none :=
      dropPrefixQ_append_none preMarker (c :: cs) sufMarker hd
        preMarker_drop_overlap (by simp)
    show containsSub preMarker (c :: (cs ++ sufMarker)) = false
    have hunf : containsSub preMarker (c :: (cs ++ sufMarker))
        = ((dropPrefixQ preMarker (c :: (cs ++ sufMarker))).isSome
            || containsSub preMarker (cs ++ sufMarker)) := rfl
    rw [hunf, show dropPrefixQ preMarker (c :: (cs ++ sufMarker)) = none from hdn, hih]
    rfl

theorem replaceDropAux_strip (pat r : List Char) (fuel : Nat) (h : pat ≠ []) :
    replaceDropAux pat (fuel + 1) (pat ++ r) = replaceDropAux pat fuel r :=
  replaceDropAux_pos pat (pat ++ r) r fuel
    (fun hc => h (List.append_eq_nil.mp hc).1)
    (dropPrefixQ_self_append pat r)

theorem replaceDropAux_strip_end (m : List Char) (hs : containsSub sufMarker m = false) :
    ∀ fuel, (m ++ sufMarker).length ≤ fuel →
      replaceDropAux sufMarker fuel (m ++ sufMarker) = m := by
  induction m with
  | nil =>
    intro fuel hf
    cases fuel with
    | zero => exact absurd hf (by decide)
    | succ f =>
      rw [List.nil_append]
      have h1 : dropPrefixQ sufMarker sufMarker = some [] := by
        have h0 := dropPrefixQ_self_append sufMarker []
        simpa using h0
      rw [replaceDropAux_pos sufMarker sufMarker [] f (by decide) h1]
      exact replaceDropAux_nil sufMarker f
  | cons c cs ih =>
    intro fuel hf
    cases fuel with
    | zero =>
      exfalso
      simp at hf
    | succ f =>
      obtain ⟨hd, hcs⟩ := containsSub_cons_false sufMarker c cs hs
      have hdn : dropPrefixQ sufMarker ((c :: cs) ++ sufMarker) = none :=
        dropPrefixQ_append_none sufMarker (c :: cs) sufMarker hd
          sufMarker_self_overlap (by simp)
      have hdn2 : dropPrefixQ sufMarker (c :: (cs ++ sufMarker)) = none := hdn
      show replaceDropAux sufMarker (f + 1) (c :: (cs ++ sufMarker)) = c :: cs
      rw [replaceDropAux_neg sufMarker c (cs ++ sufMarker) f hdn2]
      rw [ih hcs f (by simp at hf ⊢; omega)]

theorem pyReplaceEmpty_pre (m : List Char) (hp : containsSub preMarker m = false) :
    pyReplaceEmpty preMarker (preMarker ++ (m ++ sufMarker)) = m ++ sufMarker := by
  unfold pyReplaceEmpty
  rw [if_neg (by decide : ¬ (preMarker.isEmpty = true))]
  have h8 : preMarker.length = 8 := rfl
  have hlen : (preMarker ++ (m ++ sufMarker)).length = ((m ++ sufMarker).length + 7) + 1 := by
    rw [List.length_append, h8]; omega
  rw [hlen]
  rw [replaceDropAux_strip preMarker (m ++ sufMarker) ((m ++ sufMarker).length + 7)
    (by decide)]
  exact replaceDropAux_no_occ preMarker ((m ++ sufMarker).length + 7) (m ++ sufMarker)
    (by omega) (containsSub_pre_append m hp)

theorem pyReplaceEmpty_suf (m : List Char) (hs : containsSub sufMarker m = false) :
    pyReplaceEmpty sufMarker (m ++ sufMarker) = m := by
  unfold pyReplaceEmpty
  rw [if_neg (by decide : ¬ (sufMarker.isEmpty = true))]
  exact replaceDropAux_strip_end m hs (m ++ sufMarker).length (Nat.le_refl _)

/-- C1 counterexample: the record `"segment-segment-abc_with_camera_labels"`
starts with `segment-` and ends with `_with_camera_labels`, but the code's
replace-all derivation yields `"abc"`, not the substring between the two
markers (`"segment-abc"`), because `str.replace` removes every occurrence of
the marker. -/
theorem claim_C1_counterexample :
    pyStartsWith preMarker cexRecord = true ∧
    pyEndsWith sufMarker cexRecord = true ∧
    deriveSegmentId cexRecord 0 ≠ claimedSecondaryId cexRecord := by decide

/-- C1 (amended): for every filename record of the form
`segment-<id>_with_camera_labels` in which `<id>` contains neither marker as a
substring, the derived secondary id equals exactly the substring between the
two fixed markers (e.g. `segment-abc123_with_camera_labels` yields
`abc123`). -/
theorem claim_C1 (m : List Char) (scene_id : Int)
    (hp : containsSub preMarker m = false)
    (hs : containsSub sufMarker m = false) :
    deriveSegmentId (preMarker ++ (m ++ sufMarker)) scene_id = m ∧
    claimedSecondaryId (preMarker ++ (m ++ sufMarker)) = m := by
  constructor
  · have hstart : pyStartsWith preMarker (preMarker ++ (m ++ sufMarker)) = true := by
      unfold pyStartsWith
      rw [dropPrefixQ_self_append]
      rfl
    have hend : pyEndsWith sufMarker (preMarker ++ (m ++ sufMarker)) = true := by
      unfold pyEndsWith
      rw [show (preMarker ++ (m ++ sufMarker)).reverse
          = sufMarker.reverse ++ (m.reverse ++ preMarker.reverse) by
        simp [List.reverse_append]]
      rw [dropPrefixQ_self_append]
      rfl
    unfold deriveSegmentId deriveSegmentIdWarn
    rw [hstart, hend]
    show pyReplaceEmpty sufMarker (pyReplaceEmpty preMarker (preMarker ++ (m ++ sufMarker))) = m
    rw [pyReplaceEmpty_pre m hp]
    exact pyReplaceEmpty_suf m hs
  · unfold claimedSecondaryId
    have h8 : preMarker.length = 8 := rfl
    have h19 : sufMarker.length = 19 := rfl
    rw [show (preMarker ++ (m ++ sufMarker)).drop preMarker.length = m ++ sufMarker from
      List.drop_left preMarker (m ++ sufMarker)]
    rw [show (preMarker ++ (m ++ sufMarker)).length - preMarker.length - sufMarker.length
        = m.length by
      rw [List.length_append, List.length_append, h8, h19]; omega]
    exact List.take_left m sufMarker

/-- C1 witness: the well-formed record `segment-abc123_with_camera_labels`
yields secondary id `abc123`, the exact substring between the markers. -/
theorem claim_C1_witness :
    deriveSegmentId (preMarker ++ ("abc123".toList ++ sufMarker)) 0 = "abc123".toList ∧
    claimedSecondaryId (preMarker ++ ("abc123".toList ++ sufMarker)) = "abc123".toList :=
  claim_C1 "abc123".toList 0 (by decide) (by decide)
